import Mathlib

/-!
A verification development for the comic-reading-order matching pipeline:
the ComicVine matcher (series/issue resolution with a scoring function),
the SQLite-backed persistent cache with age-based expiry, the paginating
API client, the rate limiter, and the CLI batch-matching loop.

The Python source is shallowly embedded: pure functions become Lean
functions, stateful methods become explicit state-passing functions,
SQLite tables become lists of row structures, wall-clock timestamps become
rationals, and the external catalog service becomes an oracle of functions.
-/

namespace CbroSpec

/- Rational arithmetic must evaluate inside the kernel so that concrete
scenarios can be settled by `decide`/`rfl`; these four library definitions
are sealed by default. -/
attribute [local semireducible] Rat.add Rat.sub Rat.mul Rat.inv List.mergeSort
  List.merge

/-! ## Data model (models.py)

`book_id` (a freshly generated UUID on `MatchedBook`) is not modelled:
it is nondeterministic and no property below concerns it. -/

structure ParsedIssue where
  series_name : String
  issue_number : String
  volume_hint : Option String := none
  year_hint : Option String := none
  format_type : Option String := none
  notes : Option String := none
deriving Repr, DecidableEq

structure ComicVineVolume where
  cv_volume_id : Int
  name : String
  start_year : Int
  publisher : String
  issue_count : Int
  aliases : List String := []
deriving Repr, DecidableEq

structure ComicVineIssue where
  cv_issue_id : Int
  cv_volume_id : Int
  issue_number : String
  cover_date : String
  name : Option String := none
deriving Repr, DecidableEq

/-- `MatchedBook` from models.py; `confidence` defaults to `1.0` there. -/
structure MatchedBook where
  series : String
  number : String
  volume : String
  year : String
  format_type : Option String := none
  cv_volume_id : Option Int := none
  cv_issue_id : Option Int := none
  confidence : ℚ := 1
deriving Repr, DecidableEq

/-! ## Python string helpers

Python `\s` restricted to ASCII text, Python `\w` after the normalizer's
ASCII cleaning, Python `\d`, and Python `int(...)` parsing. -/

def pyIsSpace (c : Char) : Bool :=
  c = ' ' || c = '\t' || c = '\n' || c = '\x0d' || c = '\x0b' || c = '\x0c'

def pyIsWord (c : Char) : Bool :=
  c.isAlphanum || c = '_'

/-- Number of leading characters of `cs` satisfying `p`. -/
def countLeading (p : Char → Bool) : List Char → Nat
  | [] => 0
  | c :: cs => if p c then countLeading p cs + 1 else 0

def digitsToNat (cs : List Char) : Nat :=
  cs.foldl (fun acc c => acc * 10 + (c.toNat - 48)) 0

/-- Python `int(s)` on a decimal string: optional surrounding whitespace,
optional sign, then one or more digits; `none` models `ValueError`. -/
def pyParseInt (s : String) : Option Int :=
  let cs := (s.data.dropWhile pyIsSpace).reverse.dropWhile pyIsSpace |>.reverse
  let core : List Char → Option Int := fun ds =>
    if ds ≠ [] ∧ ds.all Char.isDigit then some (digitsToNat ds : Int) else none
  match cs with
  | '+' :: r => core r
  | '-' :: r => (core r).map Int.neg
  | r => core r

/-- Python truthiness of an optional string (`None` and `""` are falsy). -/
def optStrTruthy : Option String → Bool
  | none => false
  | some s => s ≠ ""

/-- Python `a or b` on an optional string against a default. -/
def pyOrStr (a : Option String) (b : String) : String :=
  match a with
  | some s => if s = "" then b else s
  | none => b

/-! ## text_normalizer.py

The substitution scanners mirror `re.sub` for the concrete patterns of the
source: scan left to right, consume a match and emit its replacement, else
emit one character and advance.  Each scanner consumes at least one
character per step, so a fuel of `length + 1` is always sufficient; the
fuel only serves to make the recursion structural.

`unicodedata.normalize("NFKD", ...)` followed by
`.encode("ascii", "ignore")` is modelled as dropping non-ASCII characters,
which is exact for ASCII text (every input appearing in this development). -/

/-- Match `\s+vol\.?\s*\d+` at the head of `cs` (case-insensitive on
`vol`); returns the remainder after the match. -/
def matchVolAt (cs : List Char) : Option (List Char) :=
  let n := countLeading pyIsSpace cs
  if n = 0 then none else
  match cs.drop n with
  | v :: o :: l :: rest =>
    if v.toLower = 'v' ∧ o.toLower = 'o' ∧ l.toLower = 'l' then
      let r1 := match rest with
        | '.' :: r => r
        | _ => rest
      let r2 := r1.drop (countLeading pyIsSpace r1)
      let d := countLeading Char.isDigit r2
      if d = 0 then none else some (r2.drop d)
    else none
  | _ => none

def subVolFuel : Nat → List Char → List Char
  | 0, cs => cs
  | _ + 1, [] => []
  | f + 1, c :: cs =>
    match matchVolAt (c :: cs) with
    | some rest => subVolFuel f rest
    | none => c :: subVolFuel f cs

/-- Match `\s*\(\d{4}\)` at the head of `cs`. -/
def matchParenYearAt (cs : List Char) : Option (List Char) :=
  let n := countLeading pyIsSpace cs
  match cs.drop n with
  | '(' :: a :: b :: c :: d :: ')' :: rest =>
    if a.isDigit ∧ b.isDigit ∧ c.isDigit ∧ d.isDigit then some rest else none
  | _ => none

def subParenYearFuel : Nat → List Char → List Char
  | 0, cs => cs
  | _ + 1, [] => []
  | f + 1, c :: cs =>
    match matchParenYearAt (c :: cs) with
    | some rest => subParenYearFuel f rest
    | none => c :: subParenYearFuel f cs

/-- `re.sub(r"^the\s+", "", name)` on an already lowercased string. -/
def stripLeadingThe (cs : List Char) : List Char :=
  match cs with
  | 't' :: 'h' :: 'e' :: rest =>
    let n := countLeading pyIsSpace rest
    if n = 0 then cs else rest.drop n
  | _ => cs

def apos : Char := Char.ofNat 39

/-- Match `\s+'|'\s+` at the head of `cs` (replacement is a single space). -/
def matchApoAt (cs : List Char) : Option (List Char) :=
  let n := countLeading pyIsSpace cs
  if n ≠ 0 then
    match cs.drop n with
    | c :: rest => if c = apos then some rest else none
    | [] => none
  else
    match cs with
    | c :: rest =>
      if c = apos then
        let m := countLeading pyIsSpace rest
        if m = 0 then none else some (rest.drop m)
      else none
    | [] => none

def subApoFuel : Nat → List Char → List Char
  | 0, cs => cs
  | _ + 1, [] => []
  | f + 1, c :: cs =>
    match matchApoAt (c :: cs) with
    | some rest => ' ' :: subApoFuel f rest
    | none => c :: subApoFuel f cs

/-- Python `str.split()`: split on whitespace runs, dropping empties. -/
def splitWsFuel : Nat → List Char → List (List Char)
  | 0, _ => []
  | f + 1, cs =>
    let cs1 := cs.drop (countLeading pyIsSpace cs)
    match cs1 with
    | [] => []
    | _ =>
      let w := countLeading (fun c => !pyIsSpace c) cs1
      cs1.take w :: splitWsFuel f (cs1.drop w)

/-- `normalize_series_name` from text_normalizer.py. -/
def normalize_series_name (s : String) : String :=
  let cs0 := s.data.map Char.toLower
  let cs1 := cs0.filter (fun c => c.toNat < 128)
  let cs2 := subVolFuel (cs1.length + 1) cs1
  let cs3 := subParenYearFuel (cs2.length + 1) cs2
  let cs4 := stripLeadingThe cs3
  let cs5 := cs4.map (fun c => if c = ':' || c = '-' || c = '_' then ' ' else c)
  let cs6 := cs5.filter (fun c => pyIsWord c || pyIsSpace c || c = apos)
  let cs7 := subApoFuel (cs6.length + 1) cs6
  let cs8 := List.intercalate [' '] (splitWsFuel (cs7.length + 1) cs7)
  String.mk cs8

/-- `build_search_query` from text_normalizer.py: case-insensitive removal
of volume indicators and `(YYYY)`, then strip trailing `.:;,-` and
surrounding whitespace, preserving case elsewhere. -/
def build_search_query (series_name : String) : String :=
  let cs0 := series_name.data
  let cs1 := subVolFuel (cs0.length + 1) cs0
  let cs2 := subParenYearFuel (cs1.length + 1) cs1
  let cs3 := (cs2.reverse.dropWhile
    (fun c => c = '.' || c = ':' || c = ';' || c = ',' || c = '-')).reverse
  let cs4 := (cs3.dropWhile pyIsSpace).reverse.dropWhile pyIsSpace |>.reverse
  String.mk cs4

/-- First `\((\d{4})\)` match in the text, as a number. -/
def findParenYear : List Char → Option Nat
  | [] => none
  | x :: cs =>
    match x :: cs with
    | '(' :: a :: b :: c :: d :: ')' :: _ =>
      if a.isDigit ∧ b.isDigit ∧ c.isDigit ∧ d.isDigit then
        some (digitsToNat [a, b, c, d])
      else findParenYear cs
    | _ => findParenYear cs

/-- Match `vol\.?\s*(\d{4})` at the head (on lowercased text). -/
def tryVolYearAt (cs : List Char) : Option Nat :=
  match cs with
  | 'v' :: 'o' :: 'l' :: rest =>
    let r1 := match rest with
      | '.' :: r => r
      | _ => rest
    let r2 := r1.drop (countLeading pyIsSpace r1)
    match r2 with
    | a :: b :: c :: d :: _ =>
      if a.isDigit ∧ b.isDigit ∧ c.isDigit ∧ d.isDigit then
        some (digitsToNat [a, b, c, d])
      else none
    | _ => none
  | _ => none

def findVolYear : List Char → Option Nat
  | [] => none
  | c :: cs =>
    match tryVolYearAt (c :: cs) with
    | some y => some y
    | none => findVolYear cs

/-- `extract_year_from_name` from text_normalizer.py. -/
def extract_year_from_name (name : String) : Option Int :=
  match findParenYear name.data with
  | some y => some (y : Int)
  | none =>
    match findVolYear (name.data.map Char.toLower) with
    | some y => if 1900 < y ∧ y < 2100 then some (y : Int) else none
    | none => none

/-! ## sqlite_cache.py

Tables are lists of row structures; `CURRENT_TIMESTAMP` becomes an explicit
`now : ℚ` argument and `timedelta(days=expiry_days)` a duration `expiry : ℚ`
in the same unit.  Rows written by the cache methods never contain SQL
`NULL`s in the `or`-defaulted columns, and JSON-encoding the alias list
round-trips, so reading a row back reconstructs the stored record itself.
Timestamps stored by this model are always well-formed, so the
`fromisoformat`-failure branch of `_is_expired` (malformed treated as
expired) is never taken. -/

structure VolumeRow where
  volume : ComicVineVolume
  cached_at : ℚ
deriving Repr, DecidableEq

structure IssueRow where
  issue : ComicVineIssue
  cached_at : ℚ
deriving Repr, DecidableEq

structure MappingRow where
  normalized_name : String
  start_year : Int
  cv_volume_id : Int
  confidence : ℚ
  cached_at : ℚ
deriving Repr, DecidableEq

structure LookupRow where
  cv_volume_id : Int
  issue_number : String
  cv_issue_id : Int
  publication_year : Option Int
deriving Repr, DecidableEq

structure CacheDB where
  volumes : List VolumeRow := []
  issues : List IssueRow := []
  series_mapping : List MappingRow := []
  issue_lookup : List LookupRow := []
deriving Repr, DecidableEq

def emptyDB : CacheDB := {}

/-- `_is_expired`: a row is expired when `now - cached_at > expiry`. -/
def is_expired (expiry now cached_at : ℚ) : Bool :=
  expiry < now - cached_at

/-- `get_volume`: fetch by primary key, expiry-checked. -/
def get_volume (db : CacheDB) (expiry now : ℚ) (cv_volume_id : Int) :
    Option ComicVineVolume :=
  match db.volumes.find? (fun r => r.volume.cv_volume_id == cv_volume_id) with
  | none => none
  | some r => if is_expired expiry now r.cached_at then none else some r.volume

/-- `cache_volume`: `INSERT OR REPLACE` keyed on `cv_volume_id`, stamping
`cached_at = now`. -/
def cache_volume (db : CacheDB) (v : ComicVineVolume) (now : ℚ) : CacheDB :=
  { db with volumes :=
      db.volumes.filter (fun r => r.volume.cv_volume_id != v.cv_volume_id)
        ++ [⟨v, now⟩] }

/-- `get_issue`: join `issues` with `issue_lookup` on `cv_issue_id`,
filtered by the `(volume, issue-number)` composite key, expiry-checked on
the issue row. -/
def get_issue (db : CacheDB) (expiry now : ℚ) (cv_volume_id : Int)
    (issue_number : String) : Option ComicVineIssue :=
  match db.issue_lookup.find? (fun l =>
      l.cv_volume_id == cv_volume_id && l.issue_number == issue_number) with
  | none => none
  | some l =>
    match db.issues.find? (fun r => r.issue.cv_issue_id == l.cv_issue_id) with
    | none => none
    | some r => if is_expired expiry now r.cached_at then none else some r.issue

/-- The `publication_year` column of an `issue_lookup` row:
`int(cover_date[:4])` when the cover date has at least four characters and
the prefix parses, else `NULL`. -/
def lookupPubYear (cover_date : String) : Option Int :=
  if 4 ≤ cover_date.length then pyParseInt (cover_date.take 4) else none

/-- `cache_issue`: upsert the issue row and its lookup-index row. -/
def cache_issue (db : CacheDB) (i : ComicVineIssue) (now : ℚ) : CacheDB :=
  { db with
    issues :=
      db.issues.filter (fun r => r.issue.cv_issue_id != i.cv_issue_id) ++ [⟨i, now⟩],
    issue_lookup :=
      db.issue_lookup.filter (fun l =>
        !(l.cv_volume_id == i.cv_volume_id && l.issue_number == i.issue_number))
        ++ [⟨i.cv_volume_id, i.issue_number, i.cv_issue_id, lookupPubYear i.cover_date⟩] }

/-- `cache_volume_issues`: the bulk upsert performs the same per-issue pair
of upserts in one transaction. -/
def cache_volume_issues (db : CacheDB) (issues : List ComicVineIssue) (now : ℚ) :
    CacheDB :=
  issues.foldl (fun d i => cache_issue d i now) db

/-- Strict precedence in `ORDER BY confidence DESC, start_year DESC`. -/
def mapping_better (a b : MappingRow) : Bool :=
  b.confidence < a.confidence ||
    (a.confidence = b.confidence && b.start_year < a.start_year)

/-- One step of the `ORDER BY ... LIMIT 1` selection fold. -/
def bm_step (acc : Option MappingRow) (r : MappingRow) : Option MappingRow :=
  match acc with
  | none => some r
  | some b => if mapping_better r b then some r else some b

/-- The row `ORDER BY confidence DESC, start_year DESC LIMIT 1` selects,
modelled as a fold keeping the better row (first row wins exact ties, which
cannot arise for one name because `(normalized_name, start_year)` is the
primary key). -/
def best_mapping (rows : List MappingRow) : Option MappingRow :=
  rows.foldl bm_step none

/-- `get_volume_for_series`: with a truthy year, exact composite-key
lookup; otherwise the single best row over all mappings for the name, and
only that row is expiry-checked. -/
def get_volume_for_series (db : CacheDB) (expiry now : ℚ) (normalized_name : String)
    (start_year : Option Int) : Option Int :=
  let rowOpt : Option MappingRow :=
    match start_year with
    | some y =>
      if y ≠ 0 then
        db.series_mapping.find? (fun m =>
          m.normalized_name == normalized_name && m.start_year == y)
      else
        best_mapping (db.series_mapping.filter (fun m =>
          m.normalized_name == normalized_name))
    | none =>
      best_mapping (db.series_mapping.filter (fun m =>
        m.normalized_name == normalized_name))
  match rowOpt with
  | none => none
  | some m => if is_expired expiry now m.cached_at then none else some m.cv_volume_id

/-- `cache_series_mapping`: `INSERT OR REPLACE` keyed on `(name, year)`. -/
def cache_series_mapping (db : CacheDB) (normalized_name : String) (start_year : Int)
    (cv_volume_id : Int) (confidence : ℚ) (now : ℚ) : CacheDB :=
  { db with series_mapping :=
      db.series_mapping.filter (fun m =>
        !(m.normalized_name == normalized_name && m.start_year == start_year))
        ++ [⟨normalized_name, start_year, cv_volume_id, confidence, now⟩] }

/-- Deletion predicate of `clear_expired`'s `DELETE ... WHERE cached_at < ?`
with `cutoff = now - expiry`, modelled chronologically.  (The source
compares timestamp strings: `isoformat()` writes a `T` separator while
`CURRENT_TIMESTAMP` writes a space, so on the cutoff's own calendar day the
string order deviates from chronological order by up to one day; away from
that day — as in every scenario below — the two orders agree, and
`cached_at < now - expiry` coincides with `_is_expired`.) -/
def purgeDel (expiry now cached_at : ℚ) : Bool :=
  cached_at < now - expiry

/-- `clear_expired`: delete expired volumes, issues and mappings, summing
those three `rowcount`s; then delete orphaned `issue_lookup` rows, whose
`rowcount` is not added to the running total. -/
def clear_expired (db : CacheDB) (expiry now : ℚ) : CacheDB × Nat :=
  let vKeep := db.volumes.filter (fun r => !purgeDel expiry now r.cached_at)
  let nV := db.volumes.countP (fun r => purgeDel expiry now r.cached_at)
  let iKeep := db.issues.filter (fun r => !purgeDel expiry now r.cached_at)
  let nI := db.issues.countP (fun r => purgeDel expiry now r.cached_at)
  let mKeep := db.series_mapping.filter (fun m => !purgeDel expiry now m.cached_at)
  let nM := db.series_mapping.countP (fun m => purgeDel expiry now m.cached_at)
  let lKeep := db.issue_lookup.filter (fun l =>
    iKeep.any (fun r => r.issue.cv_issue_id == l.cv_issue_id))
  (⟨vKeep, iKeep, mKeep, lKeep⟩, nV + nI + nM)

/-! ## matcher.py: scoring -/

/-- Contiguous containment of one character list in another. -/
def isSubList (needle : List Char) : List Char → Bool
  | [] => needle.isEmpty
  | c :: t => needle.isPrefixOf (c :: t) || isSubList needle t

/-- Python `needle in hay` on strings (contiguous substring). -/
def pyInStr (needle hay : String) : Bool :=
  isSubList needle.data hay.data

/-- Alias scoring loop of `_select_best_volume`: `+80` and stop on the
first exact normalized match, `+30` (without stopping) per
substring-containing alias. -/
def alias_score (normalized_name : String) : List String → ℚ
  | [] => 0
  | a :: rest =>
    let an := normalize_series_name a
    if an = normalized_name then 80
    else if pyInStr normalized_name an || pyInStr an normalized_name then
      30 + alias_score normalized_name rest
    else alias_score normalized_name rest

/-- Per-candidate score accumulation of `_select_best_volume`, including
the volume-size preference exactly as written in the source: the
`issue_count > 10` test comes first, its `elif issue_count > 50` second. -/
def score_volume (vol : ComicVineVolume) (normalized_name : String)
    (target_year : Option Int) : ℚ :=
  let vol_normalized := normalize_series_name vol.name
  let nameScore : ℚ :=
    if vol_normalized = normalized_name then 100
    else if pyInStr normalized_name vol_normalized
        || pyInStr vol_normalized normalized_name then 50
    else 0
  let aliasScore := alias_score normalized_name vol.aliases
  let yearScore : ℚ :=
    match target_year with
    | some ty =>
      if ty ≠ 0 ∧ vol.start_year ≠ 0 then
        let d := (vol.start_year - ty).natAbs
        if d = 0 then 30 else if d ≤ 1 then 20 else if d ≤ 3 then 10 else 0
      else 0
    | none => 0
  let sizeScore : ℚ :=
    if 10 < vol.issue_count then 5
    else if 50 < vol.issue_count then 10
    else 0
  nameScore + aliasScore + yearScore + sizeScore

/-- `_select_best_volume`: score every candidate, stable-sort by score
descending, accept the top candidate only when its score is at least 50. -/
def select_best_volume (volumes : List ComicVineVolume) (normalized_name : String)
    (target_year : Option Int) : Option ComicVineVolume :=
  let scored := volumes.map (fun v => (score_volume v normalized_name target_year, v))
  match scored.mergeSort (fun a b => decide (b.1 ≤ a.1)) with
  | [] => none
  | (best_score, best_vol) :: _ =>
    if 50 ≤ best_score then some best_vol else none

/-! ## api_client.py: `get_volume_issues` pagination

The external service is an oracle mapping a requested offset to a response
(a page of raw results plus `number_of_total_results`).  The source method
calls itself recursively (`issues.extend(self.get_volume_issues(volume_id,
offset + 100))`), so each further page adds one nested stack frame; the
embedding counts the API requests made and the nesting depth of the
self-calls.  The structural `fuel` argument stands for the finite call
stack: `none` models non-termination or stack exhaustion, and any fuel of
at least the number of pages suffices. -/

structure RawIssueResult where
  id : Int
  issue_number : Option String := none
  cover_date : Option String := none
  name : Option String := none
deriving Repr, DecidableEq

structure IssuesResponse where
  results : List RawIssueResult
  number_of_total_results : Nat
deriving Repr, DecidableEq

/-- Build a `ComicVineIssue` from one raw result, with the `or ""`
defaults of the source. -/
def issueOfRaw (volume_id : Int) (r : RawIssueResult) : ComicVineIssue :=
  { cv_issue_id := r.id,
    cv_volume_id := volume_id,
    issue_number := pyOrStr r.issue_number "",
    cover_date := pyOrStr r.cover_date "",
    name := r.name }

/-- `get_volume_issues` of the API client: fetch a page at `offset`, and if
`offset + len(results) < number_of_total_results`, recurse at
`offset + 100`, extending the accumulated list.  Returns
`(issues, api_calls, depth)` where `depth` counts the nested self-calls. -/
def get_volume_issues_paged (server : Nat → IssuesResponse) (volume_id : Int) :
    Nat → Nat → Option (List ComicVineIssue × Nat × Nat)
  | _, 0 => none
  | offset, fuel + 1 =>
    let data := server offset
    let issues := data.results.map (issueOfRaw volume_id)
    if offset + issues.length < data.number_of_total_results then
      match get_volume_issues_paged server volume_id (offset + 100) fuel with
      | none => none
      | some (more, calls, depth) => some (issues ++ more, calls + 1, depth + 1)
    else
      some (issues, 1, 1)

/-! ## matcher.py: state and resolution -/

/-- The catalog boundary the matcher consumes (`ComicVineClient`): textual
volume search and full-volume issue fetch.  Pagination is below this
boundary, so `volume_issues` returns the assembled list. -/
structure Catalog where
  search_volumes : String → Nat → List ComicVineVolume
  volume_issues : Int → List ComicVineIssue

/-- Matcher-visible mutable state: the persistent cache plus the
per-session in-memory `_volume_issues_cache` (volume id to a dict from
issue-number string to issue; dict insertion is modeled with later entries
overwriting earlier keys).  `fetch_log` instruments the embedding with the
volume ids passed to `cv_client.get_volume_issues`, so that theorems can
count catalog fetches; it does not influence any computed result. -/
structure MatcherState where
  db : CacheDB := emptyDB
  volume_issues_cache : List (Int × List (String × ComicVineIssue)) := []
  fetch_log : List Int := []
deriving Repr, DecidableEq

/-- Python dict insert: replace any earlier binding of the key. -/
def dictInsert {α : Type} (m : List (String × α)) (k : String) (v : α) :
    List (String × α) :=
  m.filter (fun e => e.1 != k) ++ [(k, v)]

/-- Python dict lookup. -/
def dictFind {α : Type} (m : List (String × α)) (k : String) : Option α :=
  (m.find? (fun e => e.1 == k)).map (·.2)

/-- `{i.issue_number: i for i in issues}`. -/
def buildIssueMap (issues : List ComicVineIssue) : List (String × ComicVineIssue) :=
  issues.foldl (fun m i => dictInsert m i.issue_number i) []

def memoFind (memo : List (Int × List (String × ComicVineIssue))) (vid : Int) :
    Option (List (String × ComicVineIssue)) :=
  (memo.find? (fun e => e.1 == vid)).map (·.2)

def memoInsert (memo : List (Int × List (String × ComicVineIssue))) (vid : Int)
    (m : List (String × ComicVineIssue)) :
    List (Int × List (String × ComicVineIssue)) :=
  memo.filter (fun e => e.1 != vid) ++ [(vid, m)]

/-- `_find_issue`: durable cache first, then the in-memory memo, and
otherwise a full catalog fetch that is persisted, memoized, and consulted. -/
def find_issue (cat : Catalog) (st : MatcherState) (expiry now : ℚ)
    (volume : ComicVineVolume) (issue_number : String) :
    Option ComicVineIssue × MatcherState :=
  match get_issue st.db expiry now volume.cv_volume_id issue_number with
  | some cached => (some cached, st)
  | none =>
    let memoHit : Option ComicVineIssue :=
      match memoFind st.volume_issues_cache volume.cv_volume_id with
      | some issue_map => dictFind issue_map issue_number
      | none => none
    match memoHit with
    | some i => (some i, st)
    | none =>
      let issues := cat.volume_issues volume.cv_volume_id
      let db1 := cache_volume_issues st.db issues now
      let issue_map := buildIssueMap issues
      (dictFind issue_map issue_number,
       { db := db1,
         volume_issues_cache := memoInsert st.volume_issues_cache volume.cv_volume_id issue_map,
         fetch_log := st.fetch_log ++ [volume.cv_volume_id] })

/-- Target-year derivation at the top of `_find_volume`: a parsable year
hint; else a volume hint parsing to a number above 1900; a resulting `0` or
nothing at all falls back to a year embedded in the raw series name. -/
def target_year_of (parsed : ParsedIssue) : Option Int :=
  let ty1 : Option Int :=
    if optStrTruthy parsed.year_hint then
      pyParseInt (parsed.year_hint.getD "")
    else if optStrTruthy parsed.volume_hint then
      match pyParseInt (parsed.volume_hint.getD "") with
      | some vol_num => if 1900 < vol_num then some vol_num else none
      | none => none
    else none
  match ty1 with
  | none => extract_year_from_name parsed.series_name
  | some y => if y = 0 then extract_year_from_name parsed.series_name else some y

/-- The cache-first arm of `_find_volume`: a mapped id is used only when it
is strictly positive, and only when the mapped volume row is itself
retrievable. -/
def cache_attempt (db : CacheDB) (expiry now : ℚ) (normalized_name : String)
    (target_year : Option Int) : Option ComicVineVolume :=
  match get_volume_for_series db expiry now normalized_name target_year with
  | some cached_volume_id =>
    if 0 < cached_volume_id then get_volume db expiry now cached_volume_id else none
  | none => none

/-- `_interactive_select_volume`, driven by an oracle giving the first
effective numeric entry (`none` models a `ValueError`/interrupt abort):
`0` skips, an in-range selection returns that candidate. -/
def interactive_select_volume (pick : List ComicVineVolume → Option Nat)
    (volumes : List ComicVineVolume) : Option ComicVineVolume :=
  match pick volumes with
  | none => none
  | some 0 => none
  | some (n + 1) => if n + 1 ≤ min 10 volumes.length then volumes.get? n else none

/-- The search arm of `_find_volume`: search the catalog, persist every
candidate, score, persist a confident mapping at confidence 1.0, and
otherwise fall back to interactive selection persisted at 0.9. -/
def find_volume_search (cat : Catalog) (pick : List ComicVineVolume → Option Nat)
    (interactive : Bool) (db : CacheDB) (expiry now : ℚ) (normalized_name : String)
    (parsed : ParsedIssue) (target_year : Option Int) :
    Option ComicVineVolume × CacheDB :=
  let search_query := build_search_query parsed.series_name
  let volumes := cat.search_volumes search_query 15
  if volumes.isEmpty then (none, db) else
  let db1 := volumes.foldl (fun d v => cache_volume d v now) db
  match select_best_volume volumes normalized_name target_year with
  | some best =>
    (some best,
     cache_series_mapping db1 normalized_name best.start_year best.cv_volume_id 1 now)
  | none =>
    if interactive then
      match interactive_select_volume pick volumes with
      | some chosen =>
        (some chosen,
         cache_series_mapping db1 normalized_name chosen.start_year chosen.cv_volume_id
           (9 / 10) now)
      | none => (none, db1)
    else (none, db1)

/-- `_find_volume`. -/
def find_volume (cat : Catalog) (pick : List ComicVineVolume → Option Nat)
    (interactive : Bool) (db : CacheDB) (expiry now : ℚ) (normalized_name : String)
    (parsed : ParsedIssue) : Option ComicVineVolume × CacheDB :=
  let target_year := target_year_of parsed
  match cache_attempt db expiry now normalized_name target_year with
  | some v => (some v, db)
  | none =>
    find_volume_search cat pick interactive db expiry now normalized_name parsed
      target_year

/-- `match_issue`: normalize, resolve the volume, resolve the issue, and
assemble a `MatchedBook` whose `year` prefers the first four characters of
the cover date whenever the cover date has at least four characters,
falling back to the volume's start year. -/
def match_issue (cat : Catalog) (pick : List ComicVineVolume → Option Nat)
    (interactive : Bool) (st : MatcherState) (expiry now : ℚ)
    (parsed : ParsedIssue) : Option MatchedBook × MatcherState :=
  let normalized := normalize_series_name parsed.series_name
  match find_volume cat pick interactive st.db expiry now normalized parsed with
  | (none, db') => (none, { st with db := db' })
  | (some volume, db') =>
    let st1 : MatcherState := { st with db := db' }
    match find_issue cat st1 expiry now volume parsed.issue_number with
    | (none, st2) => (none, st2)
    | (some issue, st2) =>
      let pub_year :=
        if 4 ≤ issue.cover_date.length then issue.cover_date.take 4
        else toString volume.start_year
      (some { series := volume.name,
              number := parsed.issue_number,
              volume := toString volume.start_year,
              year := pub_year,
              format_type := parsed.format_type,
              cv_volume_id := some volume.cv_volume_id,
              cv_issue_id := some issue.cv_issue_id,
              confidence := 1 }, st2)

/-! ## cli.py: the batch matching loop of `cmd_parse` -/

/-- The placeholder record `cmd_parse` synthesizes for an unmatched input,
with `volume = parsed.volume_hint or parsed.year_hint or "0"`,
`year = parsed.year_hint or "0"` and confidence 0.0. -/
def make_unmatched_book (parsed : ParsedIssue) : MatchedBook :=
  { series := parsed.series_name,
    number := parsed.issue_number,
    volume := pyOrStr parsed.volume_hint (pyOrStr parsed.year_hint "0"),
    year := pyOrStr parsed.year_hint "0",
    format_type := parsed.format_type,
    cv_volume_id := none,
    cv_issue_id := none,
    confidence := 0 }

/-- The matching loop of `cmd_parse`: every parsed issue appends exactly
one book to `all_books`, in input order — the match when one is found, the
confidence-0 placeholder otherwise. -/
def process_issues (cat : Catalog) (pick : List ComicVineVolume → Option Nat)
    (interactive : Bool) (expiry now : ℚ) (st : MatcherState) :
    List ParsedIssue → List MatchedBook × MatcherState
  | [] => ([], st)
  | parsed :: rest =>
    let (matched, st') := match_issue cat pick interactive st expiry now parsed
    let book := match matched with
      | some b => b
      | none => make_unmatched_book parsed
    let (books, st'') := process_issues cat pick interactive expiry now st' rest
    (book :: books, st'')

/-! ## rate_limiter.py

Wall-clock readings become explicit rational samples.  `acquire` reads the
clock up to three times: `t0` on entry, `t1` after the window-limit branch
(the source re-reads the clock there whether or not it actually slept), and
`t2` after a minimum-interval sleep.  A sample triple is *admissible*
(`validSamples`) when it could have come from a monotone clock whose
`sleep(d)` calls advance it by at least `d`; the theorems quantify over
admissible samples rather than fixing a schedule.  The deque eviction
`while ts and ts[0] < cutoff: ts.popleft()` is `dropWhile (· < cutoff)` on
the (chronologically ordered) timestamp list.  The lock makes concurrent
`acquire` calls execute serially, so a sequential trace models them.
`acquire` returns `none` exactly when the source would raise an
`IndexError` reading `ts[0]` from an empty deque (only reachable with
`max_requests = 0`). -/

structure RateLimiter where
  max_requests : Nat
  window_seconds : ℚ
  min_interval : ℚ
  request_times : List ℚ := []
  last_request_time : ℚ := 0
deriving Repr, DecidableEq

def mkRateLimiter (max_requests : Nat) (window_seconds min_interval : ℚ) :
    RateLimiter :=
  { max_requests := max_requests, window_seconds := window_seconds,
    min_interval := min_interval }

/-- Evict timestamps strictly older than the cutoff. -/
def popOld (cutoff : ℚ) (ts : List ℚ) : List ℚ :=
  ts.dropWhile (fun t => t < cutoff)

/-- The deque after the entry eviction at `cutoff = t0 - window`. -/
def rlAfterEvict (rl : RateLimiter) (t0 : ℚ) : List ℚ :=
  popOld (t0 - rl.window_seconds) rl.request_times

/-- `len(self._request_times) >= self.max_requests` after the eviction. -/
def rlWindowFull (rl : RateLimiter) (t0 : ℚ) : Bool :=
  rl.max_requests ≤ (rlAfterEvict rl t0).length

/-- `acquire`, on admissible samples `t0 t1 t2`. -/
def acquire (rl : RateLimiter) (t0 t1 t2 : ℚ) : Option RateLimiter :=
  let ts1 := rlAfterEvict rl t0
  if rlWindowFull rl t0 then
    match ts1 with
    | [] => none
    | _ :: _ =>
      let ts2 := popOld (t1 - rl.window_seconds) ts1
      let elapsed := t1 - rl.last_request_time
      let cur := if elapsed < rl.min_interval then t2 else t1
      some { rl with request_times := ts2 ++ [cur], last_request_time := cur }
  else
    let elapsed := t0 - rl.last_request_time
    let cur := if elapsed < rl.min_interval then t2 else t0
    some { rl with request_times := ts1 ++ [cur], last_request_time := cur }

/-- The deadline `self._request_times[0] + self.window_seconds` the window
branch sleeps toward (`0` as an unused placeholder for an empty deque). -/
def rlSleepUntil (rl : RateLimiter) (t0 : ℚ) : ℚ :=
  match rlAfterEvict rl t0 with
  | [] => 0
  | oldest :: _ => oldest + rl.window_seconds

/-- Admissibility of a sample triple in state `rl`: the clock is monotone
(`t0` is no earlier than anything recorded), the post-window-branch reading
`t1` is no earlier than `t0` nor than the deadline actually slept to, and
the post-interval-sleep reading `t2` is no earlier than `t1` nor than
`last + min_interval` when that sleep happens.  Exact equalities are
admissible: `time.time()` may repeat a reading and `sleep` may resume
exactly on time. -/
def validSamples (rl : RateLimiter) (t0 t1 t2 : ℚ) : Prop :=
  (∀ t ∈ rl.request_times, t ≤ t0) ∧
  rl.last_request_time ≤ t0 ∧
  t0 ≤ t1 ∧
  (rlWindowFull rl t0 = true → rlSleepUntil rl t0 ≤ t1) ∧
  t1 ≤ t2 ∧
  (t1 - rl.last_request_time < rl.min_interval →
    rl.last_request_time + rl.min_interval ≤ t2)

instance (rl : RateLimiter) (t0 t1 t2 : ℚ) :
    Decidable (validSamples rl t0 t1 t2) := by
  unfold validSamples
  infer_instance

/-- Run a list of `acquire` calls, each with its own sample triple. -/
def runAcquires (rl : RateLimiter) : List (ℚ × ℚ × ℚ) → Option RateLimiter
  | [] => some rl
  | (t0, t1, t2) :: rest =>
    match acquire rl t0 t1 t2 with
    | none => none
    | some rl' => runAcquires rl' rest

/-- Admissibility of a whole trace of sample triples. -/
def validTrace (rl : RateLimiter) : List (ℚ × ℚ × ℚ) → Prop
  | [] => True
  | (t0, t1, t2) :: rest =>
    validSamples rl t0 t1 t2 ∧
    (match acquire rl t0 t1 t2 with
     | none => True
     | some rl' => validTrace rl' rest)

instance : ∀ (rl : RateLimiter) (tr : List (ℚ × ℚ × ℚ)),
    Decidable (validTrace rl tr)
  | _, [] => .isTrue trivial
  | rl, (t0, t1, t2) :: rest => by
    unfold validTrace
    rcases h : acquire rl t0 t1 t2 with - | rl'
    · simp only [h]
      infer_instance
    · simp only [h]
      have := instDecidableValidTrace rl' rest
      infer_instance

/-- Timestamps recorded in the deque lying strictly within the trailing
window ending at `now` (younger than `window_seconds`). -/
def inWindowCount (rl : RateLimiter) (now : ℚ) : Nat :=
  (rl.request_times.filter (fun t => now - rl.window_seconds < t)).length

/-! ## Spec-side comparison definitions

These two definitions follow the specification's words (not the source) and
exist only to be compared against the source-derived functions above. -/

/-- Modelled from the spec: a present cover date is well-formed when it
starts with a four-digit year, as in the data model's `ISO YYYY-MM-DD`
cover-date format whose first four characters are the year. -/
def spec_cover_date_well_formed (s : String) : Bool :=
  4 ≤ s.data.length && (s.data.take 4).all Char.isDigit

/-- Modelled from the spec: the no-year series lookup "returns, among all
non-expired mappings for that normalized name, the volume id of the mapping
with highest confidence, ties broken by most recent start year". -/
def spec_get_volume_for_series_noyear (db : CacheDB) (expiry now : ℚ)
    (normalized_name : String) : Option Int :=
  (best_mapping (db.series_mapping.filter (fun m =>
    m.normalized_name == normalized_name && !is_expired expiry now m.cached_at))).map
    (·.cv_volume_id)

/-! ## Concrete scenario data for the theorems below -/

/-- Total row count of the four tables (for counting deletions). -/
def dbRowTotal (db : CacheDB) : Nat :=
  db.volumes.length + db.issues.length + db.series_mapping.length +
    db.issue_lookup.length

def vol_abc_100 : ComicVineVolume :=
  { cv_volume_id := 1, name := "abc", start_year := 0, publisher := "",
    issue_count := 100 }

def vol_abc_60 : ComicVineVolume :=
  { cv_volume_id := 2, name := "abc", start_year := 0, publisher := "",
    issue_count := 60 }

def vol_abc_20 : ComicVineVolume :=
  { cv_volume_id := 3, name := "abc", start_year := 0, publisher := "",
    issue_count := 20 }

/-- A 500-issue catalog served in five pages of 100. -/
def server500 : Nat → IssuesResponse := fun offset =>
  { results := (List.range 100).map (fun i =>
      { id := ((offset + i : Nat) : Int),
        issue_number := some (toString (offset + i + 1)),
        cover_date := some "",
        name := none }),
    number_of_total_results := 500 }

/-- A 300-issue catalog served in three pages of 100. -/
def server300 : Nat → IssuesResponse := fun offset =>
  { results := (List.range 100).map (fun i =>
      { id := ((offset + i : Nat) : Int),
        issue_number := some (toString (offset + i + 1)),
        cover_date := some "",
        name := none }),
    number_of_total_results := 300 }

def glVolume : ComicVineVolume :=
  { cv_volume_id := 7, name := "GL", start_year := 2005, publisher := "DC",
    issue_count := 0 }

def glIssueOne : ComicVineIssue :=
  { cv_issue_id := 71, cv_volume_id := 7, issue_number := "1", cover_date := "" }

/-- Catalog whose volume 7 contains only issue number `"1"`. -/
def catalogGL : Catalog :=
  { search_volumes := fun _ _ => [],
    volume_issues := fun _ => [glIssueOne] }

/-- A user-interaction oracle that always aborts. -/
def pickNone : List ComicVineVolume → Option Nat := fun _ => none

/-- Matcher state whose cache already maps the normalized name `"gl"`
(year 2005) to volume 7 and holds volume 7, all cached at time 0. -/
def stGL : MatcherState :=
  { db := cache_series_mapping (cache_volume emptyDB glVolume 0) "gl" 2005 7 1 0 }

def parsedTwo : ParsedIssue :=
  { series_name := "gl", issue_number := "2", year_hint := some "2005" }

def parsedThree : ParsedIssue :=
  { series_name := "gl", issue_number := "3", year_hint := some "2005" }

/-- The state after requesting issue `"2"` and then issue `"3"` of volume 7
through `match_issue` on a single matcher. -/
def stGLAfterTwoMisses : MatcherState :=
  (match_issue catalogGL pickNone false
    (match_issue catalogGL pickNone false stGL 30 0 parsedTwo).2 30 0 parsedThree).2

/-- An issue of volume 7 whose cover date is present but is no date. -/
def glIssueSoon : ComicVineIssue :=
  { cv_issue_id := 72, cv_volume_id := 7, issue_number := "1",
    cover_date := "soon" }

/-- Matcher state for the cover-date scenario: volume 7, its series
mapping, and issue `"1"` with cover date `"soon"`, all cached at time 0. -/
def stSoon : MatcherState :=
  { db := cache_issue
      (cache_series_mapping (cache_volume emptyDB glVolume 0) "gl" 2005 7 1 0)
      glIssueSoon 0 }

def parsedOne : ParsedIssue :=
  { series_name := "gl", issue_number := "1", year_hint := some "2005" }

/-- Catalog for the sentinel-mapping scenario: searching finds volume 7,
which contains issue `"1"`. -/
def catalogSearchGL : Catalog :=
  { search_volumes := fun _ _ => [glVolume],
    volume_issues := fun _ => [glIssueOne] }

/-- A cache holding only the prepopulate-style sentinel mapping
(`cv_volume_id = -1`, confidence 0.5) for `"gl"` at year 2005. -/
def dbSentinel : CacheDB :=
  cache_series_mapping emptyDB "gl" 2005 (-1) (1 / 2) 0

def sampleVolume : ComicVineVolume :=
  { cv_volume_id := 9, name := "Sample", start_year := 1999, publisher := "P",
    issue_count := 12, aliases := ["S"] }

def sampleIssue : ComicVineIssue :=
  { cv_issue_id := 91, cv_volume_id := 9, issue_number := "5",
    cover_date := "2000-01-01", name := some "T" }

/-- Two mappings for `"x"`: year 2005 at confidence 1.0 and year 2011 at
confidence 0.5, both cached at time 0. -/
def dbTwoMappings : CacheDB :=
  cache_series_mapping (cache_series_mapping emptyDB "x" 2005 1 1 0)
    "x" 2011 2 (1 / 2) 0

def rowX2005 : MappingRow :=
  { normalized_name := "x", start_year := 2005, cv_volume_id := 1,
    confidence := 1, cached_at := 0 }

/-- Two mappings for `"x"`: the confidence-1.0 row cached at time 0 (long
expired by time 100) and the confidence-0.5 row cached at time 100. -/
def dbStaleBest : CacheDB :=
  cache_series_mapping (cache_series_mapping emptyDB "x" 2005 1 1 0)
    "x" 2011 2 (1 / 2) 100

/-- A cache holding one issue (with its lookup-index row) cached at time 0. -/
def dbOneIssue : CacheDB :=
  cache_issue emptyDB glIssueOne 0

/-- The rate-limiter trace refuting the window property: five acquisitions
against `mkRateLimiter 2 10 1` with a clock that may repeat readings and
sleeps that resume exactly on time. -/
def cexTrace : List (ℚ × ℚ × ℚ) :=
  [(100, 100, 100), (100, 100, 101), (101, 110, 110), (110, 110, 111),
   (111, 111, 112)]

/-- The limiter state the counterexample trace reaches. -/
def cexFinal : RateLimiter :=
  { max_requests := 2, window_seconds := 10, min_interval := 1,
    request_times := [101, 110, 111, 112], last_request_time := 112 }

/-- The limiter state after one acquisition at time 100 against the
(2, 10, 1) configuration. -/
def rlOneCall : RateLimiter :=
  { max_requests := 2, window_seconds := 10, min_interval := 1,
    request_times := [100], last_request_time := 100 }

/-- Admissible samples under a strictly advancing clock: the entry reading
additionally lies strictly after the previously recorded timestamp. -/
def strictSamples (rl : RateLimiter) (t0 t1 t2 : ℚ) : Prop :=
  validSamples rl t0 t1 t2 ∧ rl.last_request_time < t0

instance (rl : RateLimiter) (t0 t1 t2 : ℚ) :
    Decidable (strictSamples rl t0 t1 t2) := by
  unfold strictSamples
  infer_instance

/-- Admissibility of a trace under a strictly advancing clock. -/
def strictTrace (rl : RateLimiter) : List (ℚ × ℚ × ℚ) → Prop
  | [] => True
  | (t0, t1, t2) :: rest =>
    strictSamples rl t0 t1 t2 ∧
    (match acquire rl t0 t1 t2 with
     | none => True
     | some rl' => strictTrace rl' rest)

instance instDecidableStrictTrace : ∀ (rl : RateLimiter) (tr : List (ℚ × ℚ × ℚ)),
    Decidable (strictTrace rl tr)
  | _, [] => .isTrue trivial
  | rl, (t0, t1, t2) :: rest => by
    unfold strictTrace
    rcases h : acquire rl t0 t1 t2 with - | rl'
    · simp only [h]
      infer_instance
    · simp only [h]
      have := instDecidableStrictTrace rl' rest
      infer_instance

/-- The limiter invariant: timestamps are chronological, none is younger
than the last recorded one, and at most `max_requests` of them lie strictly
within the trailing window ending at the last recorded timestamp. -/
def rlInv (rl : RateLimiter) : Prop :=
  rl.request_times.Sorted (· ≤ ·) ∧
  (∀ t ∈ rl.request_times, t ≤ rl.last_request_time) ∧
  inWindowCount rl rl.last_request_time ≤ rl.max_requests

/-- A sequence of `_find_issue` requests against one volume on a single
matcher. -/
def run_find_issues (cat : Catalog) (expiry now : ℚ) (volume : ComicVineVolume) :
    MatcherState → List String → MatcherState
  | st, [] => st
  | st, n :: rest =>
    run_find_issues cat expiry now volume
      ((find_issue cat st expiry now volume n).2) rest

def dummyParsed : ParsedIssue :=
  { series_name := "", issue_number := "" }

def dummyBook : MatchedBook :=
  { series := "", number := "", volume := "", year := "" }

/-- The book the cover-date scenario produces. -/
def bookSoon : MatchedBook :=
  { series := "GL", number := "1", volume := "2005", year := "soon",
    format_type := none, cv_volume_id := some 7, cv_issue_id := some 72,
    confidence := 1 }

/-! ## Theorems -/

/-- C1: the volume-size bonus as written awards +5 to every candidate with
more than 10 issues — including all candidates with more than 50 issues —
because the `issue_count > 10` test precedes the `issue_count > 50` test,
leaving the +10 branch unreachable.  A 100-issue exact-name candidate
scores 100 + 5 = 105, not the 110 the higher-bonus-first reading predicts,
and a 100-issue candidate is indistinguishable from 60- and 20-issue ones. -/
theorem volume_size_bonus_shadowed :
    score_volume vol_abc_100 "abc" none = 105 ∧
    score_volume vol_abc_100 "abc" none ≠ 110 ∧
    score_volume vol_abc_60 "abc" none = 105 ∧
    score_volume vol_abc_20 "abc" none = 105 := by
  refine ⟨by decide, by decide, by decide, by decide⟩

set_option maxRecDepth 10000 in
/-- C2: on a catalog reporting 500 total issues in five pages of 100, the
client's `get_volume_issues` does assemble exactly 500 issues using exactly
5 requests, but it does so by nested self-calls: the recursion depth is 5
and grows with the page count (3 for a 300-issue catalog), contradicting
the required bounded iteration with no recursion-depth growth. -/
theorem get_volume_issues_recursive_depth :
    (get_volume_issues_paged server500 12345 0 10).map
      (fun r => (r.1.length, r.2.1, r.2.2)) = some (500, 5, 5) ∧
    (get_volume_issues_paged server300 12345 0 10).map
      (fun r => (r.1.length, r.2.1, r.2.2)) = some (300, 3, 3) := by
  exact ⟨by rfl, by rfl⟩

/-- C3 counterexample: one matcher, one volume (id 7, containing only issue
`"1"`), and two `match_issue` requests for the distinct issue numbers `"2"`
and `"3"` of that volume: the full issue list is fetched from the catalog
twice in the same run, refuting "fetched at most once per process run". -/
theorem find_issue_refetch_cex :
    stGLAfterTwoMisses.fetch_log = [7, 7] ∧
    stGLAfterTwoMisses.fetch_log.count 7 = 2 ∧
    (match_issue catalogGL pickNone false stGL 30 0 parsedTwo).1 = none := by
  refine ⟨by decide, by decide, by decide⟩

/-- C5 counterexample: a volume written at time T = 0 with expiry duration
D = 30 is still returned by `get_volume` at read time exactly T + D = 30,
because `_is_expired` requires `now - cached_at > D` strictly; the claim
says the row is absent at or after T + D. -/
theorem cache_expiry_boundary_cex :
    get_volume (cache_volume emptyDB sampleVolume 0) 30 30
      sampleVolume.cv_volume_id = some sampleVolume := by
  decide

/-- C6 counterexample: with a confidence-1.0 mapping that has expired and a
fresh confidence-0.5 mapping for the same name, the no-year lookup returns
nothing — it picks the best row among all mappings and expiry-checks only
that row — while the claimed best-among-non-expired rule would return the
fresh mapping's volume id 2. -/
theorem mapping_fallback_expired_cex :
    get_volume_for_series dbStaleBest 30 100 "x" none = none ∧
    spec_get_volume_for_series_noyear dbStaleBest 30 100 "x" = some 2 := by
  refine ⟨by decide, by decide⟩

/-- C7 counterexample: purging a cache holding one expired issue and its
lookup-index row deletes two rows in total, but `clear_expired` returns 1:
the orphaned lookup row's deletion count is dropped. -/
theorem clear_expired_count_cex :
    (clear_expired dbOneIssue 30 100).2 = 1 ∧
    dbRowTotal dbOneIssue - dbRowTotal (clear_expired dbOneIssue 30 100).1 = 2 := by
  refine ⟨by decide, by decide⟩

/-- C9 counterexample: a successful match whose issue has the present but
malformed cover date `"soon"` gets year `"soon"`, not the volume's start
year `"2005"`: the code's only malformedness test is `length < 4`. -/
theorem match_issue_year_cex :
    ((match_issue catalogSearchGL pickNone false stSoon 30 0 parsedOne).1).map
      MatchedBook.year = some "soon" ∧
    spec_cover_date_well_formed "soon" = false ∧
    some "soon" ≠ some (toString glVolume.start_year) := by
  refine ⟨by decide, by decide, by decide⟩

/-- C4 counterexample: an admissible five-call trace against a limiter
configured for at most 2 calls per trailing 10-second window (minimum
interval 1): the clock repeats readings and sleeps resume exactly on time,
and at the moment the fifth `acquire` returns (timestamp 112), three
recorded timestamps — 110, 111 and 112 — lie strictly within the trailing
window, exceeding the configured maximum of 2. -/
theorem rate_limiter_window_cex :
    validTrace (mkRateLimiter 2 10 1) cexTrace ∧
    runAcquires (mkRateLimiter 2 10 1) cexTrace = some cexFinal ∧
    cexFinal.max_requests < inWindowCount cexFinal cexFinal.last_request_time := by
  refine ⟨by decide, by decide, by decide⟩

/-- Structure of a successful `match_issue`: the volume and issue both
resolved, and the book is exactly the assembled record. -/
theorem match_issue_some_elim (cat : Catalog) (pick : List ComicVineVolume → Option Nat)
    (interactive : Bool) (st : MatcherState) (expiry now : ℚ) (parsed : ParsedIssue)
    (b : MatchedBook) (st₂ : MatcherState)
    (h : match_issue cat pick interactive st expiry now parsed = (some b, st₂)) :
    ∃ volume db' issue,
      find_volume cat pick interactive st.db expiry now
        (normalize_series_name parsed.series_name) parsed = (some volume, db') ∧
      find_issue cat { st with db := db' } expiry now volume parsed.issue_number =
        (some issue, st₂) ∧
      b = { series := volume.name, number := parsed.issue_number,
            volume := toString volume.start_year,
            year := if 4 ≤ issue.cover_date.length then issue.cover_date.take 4
                    else toString volume.start_year,
            format_type := parsed.format_type,
            cv_volume_id := some volume.cv_volume_id,
            cv_issue_id := some issue.cv_issue_id,
            confidence := 1 } := by
  obtain ⟨vopt, db', hfv⟩ : ∃ a c, find_volume cat pick interactive st.db expiry now
      (normalize_series_name parsed.series_name) parsed = (a, c) := ⟨_, _, rfl⟩
  simp only [match_issue, hfv] at h
  cases vopt with
  | none => simp at h
  | some volume =>
    obtain ⟨iopt, stx, hfi⟩ : ∃ a c, find_issue cat { st with db := db' } expiry now
        volume parsed.issue_number = (a, c) := ⟨_, _, rfl⟩
    simp only [hfi] at h
    cases iopt with
    | none => simp at h
    | some issue =>
      simp only [Prod.mk.injEq, Option.some.injEq] at h
      obtain ⟨hb, hst⟩ := h
      exact ⟨volume, db', issue, hfv, by rw [hfi, hst], hb.symm⟩

/-- A book produced by `match_issue` carries the input's raw issue-number
string and confidence 1.0. -/
theorem match_issue_book_fields (cat : Catalog) (pick : List ComicVineVolume → Option Nat)
    (interactive : Bool) (st : MatcherState) (expiry now : ℚ) (parsed : ParsedIssue)
    (b : MatchedBook) (st₂ : MatcherState)
    (h : match_issue cat pick interactive st expiry now parsed = (some b, st₂)) :
    b.number = parsed.issue_number ∧ b.confidence = 1 := by
  obtain ⟨volume, db', issue, -, -, hb⟩ :=
    match_issue_some_elim cat pick interactive st expiry now parsed b st₂ h
  subst hb
  exact ⟨rfl, rfl⟩

/-- C8: the batch loop maps N ordered inputs to exactly N books in input
order: the i-th book carries the i-th input's issue-number string, and it
is either a matched record of confidence 1.0 or the placeholder
(confidence 0.0) synthesized from the i-th input. -/
theorem process_issues_order_preserving (cat : Catalog)
    (pick : List ComicVineVolume → Option Nat) (interactive : Bool)
    (expiry now : ℚ) :
    ∀ (l : List ParsedIssue) (st : MatcherState),
      (process_issues cat pick interactive expiry now st l).1.length = l.length ∧
      ∀ i, i < l.length →
        ((process_issues cat pick interactive expiry now st l).1.getD i dummyBook).number
            = (l.getD i dummyParsed).issue_number ∧
        (((process_issues cat pick interactive expiry now st l).1.getD i dummyBook).confidence
            = 1 ∨
          (process_issues cat pick interactive expiry now st l).1.getD i dummyBook
            = make_unmatched_book (l.getD i dummyParsed)) := by
  intro l
  induction l with
  | nil =>
    intro st
    exact ⟨rfl, fun i hi => absurd hi (by simp)⟩
  | cons p rest ih =>
    intro st
    rcases hmi : match_issue cat pick interactive st expiry now p with ⟨mopt, st'⟩
    cases mopt with
    | some b =>
      have hred : process_issues cat pick interactive expiry now st (p :: rest)
          = (b :: (process_issues cat pick interactive expiry now st' rest).1,
             (process_issues cat pick interactive expiry now st' rest).2) := by
        simp only [process_issues, hmi]
      rw [hred]
      refine ⟨by simpa using (ih st').1, ?_⟩
      intro i hi
      cases i with
      | zero =>
        obtain ⟨hnum, hconf⟩ :=
          match_issue_book_fields cat pick interactive st expiry now p b st' hmi
        simpa using ⟨hnum, Or.inl hconf⟩
      | succ j =>
        have hj : j < rest.length := by simpa using hi
        simpa using (ih st').2 j hj
    | none =>
      have hred : process_issues cat pick interactive expiry now st (p :: rest)
          = (make_unmatched_book p ::
              (process_issues cat pick interactive expiry now st' rest).1,
             (process_issues cat pick interactive expiry now st' rest).2) := by
        simp only [process_issues, hmi]
      rw [hred]
      refine ⟨by simpa using (ih st').1, ?_⟩
      intro i hi
      cases i with
      | zero => simp [make_unmatched_book]
      | succ j =>
        have hj : j < rest.length := by simpa using hi
        simpa using (ih st').2 j hj

/-- Witness for C8 at a concrete two-element batch: one input matches
(confidence 1.0), the other produces the placeholder at its position. -/
theorem process_issues_order_preserving_witness :
    (process_issues catalogSearchGL pickNone false 30 0 stSoon
        [parsedOne, parsedTwo]).1.length = 2 ∧
    ((process_issues catalogSearchGL pickNone false 30 0 stSoon
        [parsedOne, parsedTwo]).1.getD 1 dummyBook).number = parsedTwo.issue_number := by
  have h := process_issues_order_preserving catalogSearchGL pickNone false 30 0
    [parsedOne, parsedTwo] stSoon
  exact ⟨h.1, (h.2 1 (by decide)).1⟩

/-- C9 (amended): a successful match's year is the cover date's first four
characters exactly when the cover date has at least four characters, and
the volume's start year exactly when it is shorter. -/
theorem match_issue_year_amended (cat : Catalog) (pick : List ComicVineVolume → Option Nat)
    (interactive : Bool) (st : MatcherState) (expiry now : ℚ) (parsed : ParsedIssue)
    (b : MatchedBook) (st₂ : MatcherState)
    (h : match_issue cat pick interactive st expiry now parsed = (some b, st₂)) :
    ∃ volume db' issue,
      find_volume cat pick interactive st.db expiry now
        (normalize_series_name parsed.series_name) parsed = (some volume, db') ∧
      find_issue cat { st with db := db' } expiry now volume parsed.issue_number =
        (some issue, st₂) ∧
      (4 ≤ issue.cover_date.length → b.year = issue.cover_date.take 4) ∧
      (issue.cover_date.length < 4 → b.year = toString volume.start_year) := by
  obtain ⟨volume, db', issue, hfv, hfi, hb⟩ :=
    match_issue_some_elim cat pick interactive st expiry now parsed b st₂ h
  subst hb
  refine ⟨volume, db', issue, hfv, hfi, fun h4 => ?_, fun h4 => ?_⟩
  · simp [h4]
  · have hn : ¬ 4 ≤ issue.cover_date.length := by omega
    simp [hn]

/-- Witness for C9's amended theorem at the concrete `"soon"` scenario. -/
theorem match_issue_year_amended_witness :
    ∃ volume db' issue,
      find_volume catalogSearchGL pickNone false stSoon.db 30 0
        (normalize_series_name parsedOne.series_name) parsedOne = (some volume, db') ∧
      find_issue catalogSearchGL { stSoon with db := db' } 30 0 volume
        parsedOne.issue_number = (some issue, stSoon) ∧
      (4 ≤ issue.cover_date.length → bookSoon.year = issue.cover_date.take 4) ∧
      (issue.cover_date.length < 4 → bookSoon.year = toString volume.start_year) :=
  match_issue_year_amended catalogSearchGL pickNone false stSoon 30 0 parsedOne
    bookSoon stSoon (by decide)

/-- The scoring function only ever selects one of its candidates. -/
theorem select_best_volume_mem (vs : List ComicVineVolume) (nn : String)
    (ty : Option Int) (b : ComicVineVolume)
    (h : select_best_volume vs nn ty = some b) : b ∈ vs := by
  simp only [select_best_volume] at h
  obtain ⟨hd, hsort⟩ : ∃ a, (vs.map fun v => (score_volume v nn ty, v)).mergeSort
      (fun a b => decide (b.1 ≤ a.1)) = a := ⟨_, rfl⟩
  rw [hsort] at h
  cases hd with
  | nil => simp at h
  | cons top rest =>
    obtain ⟨s, v⟩ := top
    simp only at h
    split at h
    · obtain rfl : v = b := by simpa using h
      have hmem : (s, v) ∈ (vs.map fun v => (score_volume v nn ty, v)).mergeSort
          (fun a b => decide (b.1 ≤ a.1)) := by
        rw [hsort]; exact List.mem_cons_self _ _
      have hmem2 := (List.mergeSort_perm _ _).mem_iff.mp hmem
      obtain ⟨v', hv', heq⟩ := List.mem_map.mp hmem2
      obtain ⟨-, rfl⟩ := Prod.mk.injEq .. ▸ heq
      exact hv'
    · exact absurd h (by simp)

/-- The interactive fallback only ever selects one of its candidates. -/
theorem interactive_select_volume_mem (pick : List ComicVineVolume → Option Nat)
    (vs : List ComicVineVolume) (b : ComicVineVolume)
    (h : interactive_select_volume pick vs = some b) : b ∈ vs := by
  simp only [interactive_select_volume] at h
  rcases hp : pick vs with - | n
  · rw [hp] at h; simp at h
  · rw [hp] at h
    cases n with
    | zero => simp at h
    | succ m =>
      simp only at h
      split at h
      · exact List.get?_mem h
      · simp at h

/-- `get_volume` returns a volume bearing the looked-up identifier. -/
theorem get_volume_id_eq (db : CacheDB) (expiry now : ℚ) (id : Int)
    (v : ComicVineVolume) (h : get_volume db expiry now id = some v) :
    v.cv_volume_id = id := by
  obtain ⟨f, hf⟩ : ∃ a, db.volumes.find? (fun r => r.volume.cv_volume_id == id) = a :=
    ⟨_, rfl⟩
  cases f with
  | none => simp [get_volume, hf] at h
  | some r =>
    simp only [get_volume, hf] at h
    have hr := List.find?_some hf
    split at h
    · simp at h
    · obtain rfl : r.volume = v := by simpa using h
      simpa using hr

/-- A volume resolved by `_find_volume` has a positive catalog id whenever
every volume the catalog search returns has one. -/
theorem find_volume_some_pos (cat : Catalog) (pick : List ComicVineVolume → Option Nat)
    (interactive : Bool) (db : CacheDB) (expiry now : ℚ) (nn : String)
    (parsed : ParsedIssue) (vol : ComicVineVolume) (db' : CacheDB)
    (hcat : ∀ q k v, v ∈ cat.search_volumes q k → 0 < v.cv_volume_id)
    (h : find_volume cat pick interactive db expiry now nn parsed = (some vol, db')) :
    0 < vol.cv_volume_id := by
  obtain ⟨ca, hca⟩ : ∃ a, cache_attempt db expiry now nn (target_year_of parsed) = a :=
    ⟨_, rfl⟩
  cases ca with
  | none =>
    simp only [find_volume, hca] at h
    simp only [find_volume_search] at h
    obtain ⟨vols, hvols⟩ : ∃ a, cat.search_volumes (build_search_query parsed.series_name)
        15 = a := ⟨_, rfl⟩
    rw [hvols] at h
    split at h
    · simp at h
    · obtain ⟨sel, hsel⟩ : ∃ a, select_best_volume vols nn (target_year_of parsed) = a :=
        ⟨_, rfl⟩
      cases sel with
      | none =>
        rw [hsel] at h
        simp only at h
        split at h
        · obtain ⟨ints, hint⟩ : ∃ a, interactive_select_volume pick vols = a := ⟨_, rfl⟩
          cases ints with
          | none => rw [hint] at h; simp at h
          | some chosen =>
            rw [hint] at h
            obtain ⟨rfl, -⟩ : chosen = vol ∧ _ := by simpa using h
            exact hcat _ _ _ (hvols ▸ interactive_select_volume_mem pick vols chosen hint)
        · simp at h
      | some best =>
        rw [hsel] at h
        obtain ⟨rfl, -⟩ : best = vol ∧ _ := by simpa using h
        exact hcat _ _ _
          (hvols ▸ select_best_volume_mem vols nn (target_year_of parsed) best hsel)
  | some v =>
    simp only [find_volume, hca] at h
    obtain ⟨rfl, -⟩ : v = vol ∧ db = db' := by simpa using h
    obtain ⟨gs, hgs⟩ : ∃ a, get_volume_for_series db expiry now nn (target_year_of parsed)
        = a := ⟨_, rfl⟩
    cases gs with
    | none => simp [cache_attempt, hgs] at hca
    | some id =>
      simp only [cache_attempt, hgs] at hca
      split at hca
      · next hid => exact get_volume_id_eq db expiry now id v hca ▸ hid
      · simp at hca

/-- C10: a mapping whose stored volume id is not strictly positive (the
prepopulate sentinel `-1`) is treated as a cache miss — `_find_volume`
proceeds exactly as its catalog-search phase — and, whenever the catalog
only serves volumes with positive ids, a successful `match_issue` always
references a strictly positive volume id, never the sentinel. -/
theorem find_volume_sentinel_guard (cat : Catalog)
    (pick : List ComicVineVolume → Option Nat) (interactive : Bool)
    (st : MatcherState) (expiry now : ℚ) (parsed : ParsedIssue) :
    (∀ id, get_volume_for_series st.db expiry now
        (normalize_series_name parsed.series_name) (target_year_of parsed) = some id →
      id ≤ 0 →
      find_volume cat pick interactive st.db expiry now
          (normalize_series_name parsed.series_name) parsed =
        find_volume_search cat pick interactive st.db expiry now
          (normalize_series_name parsed.series_name) parsed (target_year_of parsed)) ∧
    ((∀ q k v, v ∈ cat.search_volumes q k → 0 < v.cv_volume_id) →
      ∀ b st₂, match_issue cat pick interactive st expiry now parsed = (some b, st₂) →
        ∃ i, b.cv_volume_id = some i ∧ 0 < i ∧ b.cv_volume_id ≠ some (-1)) := by
  constructor
  · intro id hmap hle
    have : ¬ (0 : Int) < id := by omega
    simp only [find_volume, cache_attempt, hmap, this, if_false]
  · intro hcat b st₂ h
    obtain ⟨volume, db', issue, hfv, -, hb⟩ :=
      match_issue_some_elim cat pick interactive st expiry now parsed b st₂ h
    have hpos := find_volume_some_pos cat pick interactive st.db expiry now
      (normalize_series_name parsed.series_name) parsed volume db' hcat hfv
    subst hb
    refine ⟨volume.cv_volume_id, rfl, hpos, ?_⟩
    simp only [ne_eq, Option.some.injEq]
    intro hcontra
    omega

/-- Witness for C10: the sentinel cache (`-1` mapping for `"gl"`) falls
through to the search phase, and the catalog serving volume 7 yields a
match referencing id 7. -/
theorem find_volume_sentinel_guard_witness :
    (find_volume catalogSearchGL pickNone false dbSentinel 30 0
        (normalize_series_name parsedOne.series_name) parsedOne =
      find_volume_search catalogSearchGL pickNone false dbSentinel 30 0
        (normalize_series_name parsedOne.series_name) parsedOne
        (target_year_of parsedOne)) ∧
    ∃ i, (match_issue catalogSearchGL pickNone false { db := dbSentinel } 30 0
        parsedOne).1.bind MatchedBook.cv_volume_id = some i ∧ 0 < i := by
  have h := find_volume_sentinel_guard catalogSearchGL pickNone false
    { db := dbSentinel } 30 0 parsedOne
  constructor
  · exact h.1 (-1) (by decide) (by decide)
  · rcases hmi : match_issue catalogSearchGL pickNone false { db := dbSentinel } 30 0
      parsedOne with ⟨mopt, st₂⟩
    cases mopt with
    | none =>
      have hnone : (match_issue catalogSearchGL pickNone false { db := dbSentinel } 30 0
          parsedOne).1 = none := by rw [hmi]
      exact absurd hnone (by decide)
    | some b =>
      obtain ⟨i, hi, hpos, -⟩ := h.2 (fun q k v hv => by
          revert hv
          simp only [catalogSearchGL]
          intro hv
          obtain rfl : v = glVolume := by simpa using hv
          decide) b st₂ hmi
      exact ⟨i, by simp [hmi, hi], hpos⟩

/-- C5 (amended): a Volume, Issue or SeriesMapping row written at time `T`
with expiry duration `D` is returned by its get operation at any read time
`t ≤ T + D` — including the boundary instant `T + D` itself — and is absent
at any read time strictly after `T + D`. -/
theorem cache_expiry_amended (v : ComicVineVolume) (i : ComicVineIssue)
    (name : String) (y vid : Int) (conf : ℚ) (T D t : ℚ) :
    (t ≤ T + D →
      get_volume (cache_volume emptyDB v T) D t v.cv_volume_id = some v ∧
      get_issue (cache_issue emptyDB i T) D t i.cv_volume_id i.issue_number = some i ∧
      get_volume_for_series (cache_series_mapping emptyDB name y vid conf T) D t name
        (some y) = some vid) ∧
    (T + D < t →
      get_volume (cache_volume emptyDB v T) D t v.cv_volume_id = none ∧
      get_issue (cache_issue emptyDB i T) D t i.cv_volume_id i.issue_number = none ∧
      get_volume_for_series (cache_series_mapping emptyDB name y vid conf T) D t name
        (some y) = none) := by
  constructor
  · intro ht
    have hfresh : is_expired D t T = false := by
      simp only [is_expired, decide_eq_false_iff_not, not_lt]
      linarith
    refine ⟨?_, ?_, ?_⟩
    · simp [get_volume, cache_volume, emptyDB, List.find?, hfresh]
    · simp [get_issue, cache_issue, emptyDB, List.find?, hfresh]
    · by_cases hy : y = 0
      · subst hy
        simp [get_volume_for_series, cache_series_mapping, emptyDB, best_mapping,
          bm_step, List.find?, hfresh]
      · simp [get_volume_for_series, cache_series_mapping, emptyDB, hy,
          List.find?, hfresh]
  · intro ht
    have hstale : is_expired D t T = true := by
      simp only [is_expired, decide_eq_true_eq]
      linarith
    refine ⟨?_, ?_, ?_⟩
    · simp [get_volume, cache_volume, emptyDB, List.find?, hstale]
    · simp [get_issue, cache_issue, emptyDB, List.find?, hstale]
    · by_cases hy : y = 0
      · subst hy
        simp [get_volume_for_series, cache_series_mapping, emptyDB, best_mapping,
          bm_step, List.find?, hstale]
      · simp [get_volume_for_series, cache_series_mapping, emptyDB, hy,
          List.find?, hstale]

/-- Witness for C5's amended theorem at T = 0, D = 30, with a fresh read at
t = 10 and a stale read at t = 40. -/
theorem cache_expiry_amended_witness :
    (get_volume (cache_volume emptyDB sampleVolume 0) 30 10
        sampleVolume.cv_volume_id = some sampleVolume ∧
      get_issue (cache_issue emptyDB sampleIssue 0) 30 10
        sampleIssue.cv_volume_id sampleIssue.issue_number = some sampleIssue ∧
      get_volume_for_series (cache_series_mapping emptyDB "x" 2005 1 1 0) 30 10 "x"
        (some 2005) = some 1) ∧
    (get_volume (cache_volume emptyDB sampleVolume 0) 30 40
        sampleVolume.cv_volume_id = none ∧
      get_issue (cache_issue emptyDB sampleIssue 0) 30 40
        sampleIssue.cv_volume_id sampleIssue.issue_number = none ∧
      get_volume_for_series (cache_series_mapping emptyDB "x" 2005 1 1 0) 30 40 "x"
        (some 2005) = none) :=
  ⟨(cache_expiry_amended sampleVolume sampleIssue "x" 2005 1 1 0 30 10).1 (by norm_num),
   (cache_expiry_amended sampleVolume sampleIssue "x" 2005 1 1 0 30 40).2 (by norm_num)⟩

/-- Length of the rows a `DELETE` leaves equals the original length minus
the number of rows matching the deletion predicate. -/
theorem length_filter_not_del {α : Type} (p : α → Bool) (l : List α) :
    (l.filter (fun a => !p a)).length = l.length - l.countP p := by
  have h := List.length_eq_countP_add_countP (l := l) (p := p)
  have hfun : (fun a => decide (¬ p a = true)) = (fun a : α => !p a) := by
    funext a
    cases hpa : p a <;> simp [hpa]
  rw [hfun] at h
  have h2 := List.countP_eq_length_filter (fun a : α => !p a) l
  omega

/-- C7 (amended): `clear_expired` returns exactly the number of deleted
volume, issue and mapping rows; the orphaned issue-lookup rows — exactly
those whose issue id no longer appears among the remaining issues — are
deleted as well but not included in the returned count. -/
theorem clear_expired_count_amended (db : CacheDB) (expiry now : ℚ) :
    (clear_expired db expiry now).2 =
      (db.volumes.length - (clear_expired db expiry now).1.volumes.length) +
      (db.issues.length - (clear_expired db expiry now).1.issues.length) +
      (db.series_mapping.length -
        (clear_expired db expiry now).1.series_mapping.length) ∧
    ∀ l, l ∈ (clear_expired db expiry now).1.issue_lookup ↔
      (l ∈ db.issue_lookup ∧
        ∃ r ∈ (clear_expired db expiry now).1.issues,
          r.issue.cv_issue_id = l.cv_issue_id) := by
  constructor
  · simp only [clear_expired]
    rw [length_filter_not_del, length_filter_not_del, length_filter_not_del]
    have h1 := List.countP_eq_length_filter
      (fun r : VolumeRow => purgeDel expiry now r.cached_at) db.volumes
    have h2 := List.countP_eq_length_filter
      (fun r : IssueRow => purgeDel expiry now r.cached_at) db.issues
    have h3 := List.countP_eq_length_filter
      (fun m : MappingRow => purgeDel expiry now m.cached_at) db.series_mapping
    have hl1 := List.length_filter_le
      (fun r : VolumeRow => purgeDel expiry now r.cached_at) db.volumes
    have hl2 := List.length_filter_le
      (fun r : IssueRow => purgeDel expiry now r.cached_at) db.issues
    have hl3 := List.length_filter_le
      (fun m : MappingRow => purgeDel expiry now m.cached_at) db.series_mapping
    omega
  · intro l
    simp only [clear_expired, List.mem_filter, List.any_eq_true, beq_iff_eq]

/-- No row strictly precedes itself in the `ORDER BY` order. -/
theorem mapping_better_self (m : MappingRow) : mapping_better m m = false := by
  simp [mapping_better]

/-- Strict precedence in the `ORDER BY` order is asymmetric. -/
theorem mapping_better_asymm (a b : MappingRow) (h : mapping_better a b = true) :
    mapping_better b a = false := by
  cases hba : mapping_better b a
  · rfl
  · exfalso
    simp only [mapping_better, Bool.or_eq_true, Bool.and_eq_true,
      decide_eq_true_eq] at h hba
    rcases h with h1 | ⟨h1, h2⟩ <;> rcases hba with h3 | ⟨h3, h4⟩
    · linarith
    · linarith
    · linarith
    · omega

/-- The selection fold returns the row strictly preceding every other row:
dominance over every list element (and over any seeded accumulator value)
pins the fold's result. -/
theorem bm_foldl_dominant (m : MappingRow) :
    ∀ (l : List MappingRow) (acc : Option MappingRow),
      (m ∈ l ∨ acc = some m) →
      (∀ x ∈ l, x = m ∨ mapping_better m x = true) →
      (∀ b, acc = some b → b = m ∨ mapping_better m b = true) →
      l.foldl bm_step acc = some m := by
  intro l
  induction l with
  | nil =>
    intro acc h1 _ _
    rcases h1 with h | h
    · simp at h
    · simpa using h
  | cons x t ih =>
    intro acc h1 h2 h3
    rw [List.foldl_cons]
    apply ih
    · by_cases hmt : m ∈ t
      · exact Or.inl hmt
      · right
        rcases h1 with hmem | hacc
        · have hx : x = m := by
            rcases List.mem_cons.mp hmem with h | h
            · exact h.symm
            · exact absurd h hmt
          subst hx
          cases acc with
          | none => rfl
          | some b =>
            rcases h3 b rfl with rfl | hb
            · simp [bm_step, mapping_better_self]
            · simp [bm_step, hb]
        · rw [hacc]
          rcases h2 x (List.mem_cons_self x t) with rfl | hx
          · simp [bm_step, mapping_better_self]
          · simp [bm_step, mapping_better_asymm m x hx]
    · exact fun y hy => h2 y (List.mem_cons_of_mem x hy)
    · intro b hb
      cases acc with
      | none =>
        simp only [bm_step, Option.some.injEq] at hb
        subst hb
        exact h2 x (List.mem_cons_self x t)
      | some c =>
        simp only [bm_step] at hb
        split at hb
        · obtain rfl : x = b := by simpa using hb
          exact h2 x (List.mem_cons_self x t)
        · obtain rfl : c = b := by simpa using hb
          exact h3 c rfl

/-- C6 (amended): the no-year lookup selects the best row by confidence
descending then start-year descending among ALL stored mappings for the
name, and returns its volume id exactly when that particular row is
non-expired; an expired top row yields absence, with no fallback to
lower-ranked fresh rows. -/
theorem get_volume_for_series_noyear_best (db : CacheDB) (expiry now : ℚ)
    (name : String) (m : MappingRow) (hm : m ∈ db.series_mapping)
    (hname : m.normalized_name = name)
    (hdom : ∀ m' ∈ db.series_mapping, m'.normalized_name = name → m' ≠ m →
      mapping_better m m' = true) :
    get_volume_for_series db expiry now name none =
      if is_expired expiry now m.cached_at then none else some m.cv_volume_id := by
  have hbest : best_mapping (db.series_mapping.filter
      (fun x => x.normalized_name == name)) = some m := by
    apply bm_foldl_dominant
    · exact Or.inl (List.mem_filter.mpr ⟨hm, by simp [hname]⟩)
    · intro x hx
      obtain ⟨hx1, hx2⟩ := List.mem_filter.mp hx
      by_cases hxm : x = m
      · exact Or.inl hxm
      · exact Or.inr (hdom x hx1 (by simpa using hx2) hxm)
    · intro b hb
      simp at hb
  simp only [get_volume_for_series, hbest]

/-- Witness for C6's amended theorem at the claim's own scenario: fresh
mappings at (2005, confidence 1.0) and (2011, confidence 0.5) — the no-year
lookup returns the 2005 volume id. -/
theorem get_volume_for_series_noyear_best_witness :
    get_volume_for_series dbTwoMappings 30 10 "x" none = some 1 := by
  have h := get_volume_for_series_noyear_best dbTwoMappings 30 10 "x" rowX2005
    (by decide) (by decide) (by decide)
  rw [h]
  decide

/-- A dict lookup succeeds exactly when some entry bears the key. -/
theorem dictFind_isSome_iff {α : Type} (m : List (String × α)) (k : String) :
    (dictFind m k).isSome = true ↔ ∃ e ∈ m, e.1 = k := by
  simp [dictFind, List.find?_isSome]

/-- Presence of a number in an issue list survives the dict build, from any
accumulator, and any accumulator hit survives as well. -/
theorem foldl_dictInsert_isSome (n : String) :
    ∀ (issues : List ComicVineIssue) (m0 : List (String × ComicVineIssue)),
      (n ∈ issues.map ComicVineIssue.issue_number ∨ (dictFind m0 n).isSome = true) →
      (dictFind (issues.foldl (fun m i => dictInsert m i.issue_number i) m0) n).isSome
        = true := by
  intro issues
  induction issues with
  | nil =>
    intro m0 h
    rcases h with h | h
    · simp at h
    · simpa using h
  | cons i t ih =>
    intro m0 h
    rw [List.foldl_cons]
    apply ih
    by_cases hn : n = i.issue_number
    · right
      rw [dictFind_isSome_iff]
      exact ⟨(i.issue_number, i), by simp [dictInsert], hn.symm⟩
    · rcases h with hmem | hsome
      · rcases (by simpa using hmem :
            n = i.issue_number ∨ ∃ a ∈ t, a.issue_number = n) with h | ⟨a, ha, han⟩
        · exact absurd h hn
        · exact Or.inl (by simpa using ⟨a, ha, han⟩)
      · right
        rw [dictFind_isSome_iff] at hsome ⊢
        obtain ⟨e, he, hek⟩ := hsome
        refine ⟨e, List.mem_append_left _ (List.mem_filter.mpr ⟨he, ?_⟩), hek⟩
        simp [hek, hn]

/-- The number a requested issue is looked up under is found in the map the
fetch builds whenever it occurs in the fetched list. -/
theorem buildIssueMap_mem_isSome (issues : List ComicVineIssue) (n : String)
    (h : n ∈ issues.map ComicVineIssue.issue_number) :
    (dictFind (buildIssueMap issues) n).isSome = true :=
  foldl_dictInsert_isSome n issues [] (Or.inl h)

/-- Inserting a volume's map into the memo makes it the one found. -/
theorem memoFind_insert (memo : List (Int × List (String × ComicVineIssue)))
    (vid : Int) (m : List (String × ComicVineIssue)) :
    memoFind (memoInsert memo vid m) vid = some m := by
  have hnone : (memo.filter (fun e => e.1 != vid)).find? (fun e => e.1 == vid)
      = none := by
    rw [List.find?_eq_none]
    intro x hx
    have := (List.mem_filter.mp hx).2
    simpa using this
  simp [memoFind, memoInsert, List.find?_append, hnone]

/-- One `_find_issue` call either leaves the state untouched (durable-cache
or memo hit) or performs exactly one catalog fetch, after which the memo
holds the volume's full issue map; a fetch can only happen when the
requested number was not in an already-true memo. -/
theorem find_issue_step (cat : Catalog) (st : MatcherState) (expiry now : ℚ)
    (volume : ComicVineVolume) (n : String) :
    (find_issue cat st expiry now volume n).2 = st ∨
    ((find_issue cat st expiry now volume n).2.fetch_log =
        st.fetch_log ++ [volume.cv_volume_id] ∧
      memoFind (find_issue cat st expiry now volume n).2.volume_issues_cache
          volume.cv_volume_id =
        some (buildIssueMap (cat.volume_issues volume.cv_volume_id)) ∧
      (memoFind st.volume_issues_cache volume.cv_volume_id =
          some (buildIssueMap (cat.volume_issues volume.cv_volume_id)) →
        dictFind (buildIssueMap (cat.volume_issues volume.cv_volume_id)) n = none)) := by
  obtain ⟨g, hg⟩ : ∃ a, get_issue st.db expiry now volume.cv_volume_id n = a := ⟨_, rfl⟩
  cases g with
  | some cached => left; simp [find_issue, hg]
  | none =>
    obtain ⟨mf, hmf⟩ : ∃ a, memoFind st.volume_issues_cache volume.cv_volume_id = a :=
      ⟨_, rfl⟩
    cases mf with
    | some im =>
      obtain ⟨df, hdf⟩ : ∃ a, dictFind im n = a := ⟨_, rfl⟩
      cases df with
      | some i => left; simp [find_issue, hg, hmf, hdf]
      | none =>
        right
        refine ⟨by simp [find_issue, hg, hmf, hdf], ?_, ?_⟩
        · simp [find_issue, hg, hmf, hdf, memoFind_insert]
        · intro hmemo
          rw [hmf] at hmemo
          obtain rfl : im = buildIssueMap (cat.volume_issues volume.cv_volume_id) := by
            simpa using hmemo
          exact hdf
    | none =>
      right
      refine ⟨by simp [find_issue, hg, hmf], ?_, ?_⟩
      · simp [find_issue, hg, hmf, memoFind_insert]
      · intro hmemo
        rw [hmf] at hmemo
        exact absurd hmemo (by simp)

/-- C3 (amended): across any sequence of issue-number requests against one
volume on a single matcher, provided each requested number exists in the
volume's catalog issue list, the volume's full issue list is fetched at
most once — and not at all once the memo already holds the volume's map. -/
theorem find_issue_fetch_once (cat : Catalog) (expiry now : ℚ)
    (volume : ComicVineVolume) :
    ∀ (nums : List String) (st : MatcherState),
      (∀ n ∈ nums, n ∈ (cat.volume_issues volume.cv_volume_id).map
        ComicVineIssue.issue_number) →
      (memoFind st.volume_issues_cache volume.cv_volume_id =
          some (buildIssueMap (cat.volume_issues volume.cv_volume_id)) →
        (run_find_issues cat expiry now volume st nums).fetch_log.count
            volume.cv_volume_id =
          st.fetch_log.count volume.cv_volume_id) ∧
      (run_find_issues cat expiry now volume st nums).fetch_log.count
          volume.cv_volume_id ≤
        st.fetch_log.count volume.cv_volume_id + 1 := by
  intro nums
  induction nums with
  | nil =>
    intro st _
    exact ⟨fun _ => rfl, Nat.le_succ _⟩
  | cons n rest ih =>
    intro st hnums
    have hrest : ∀ x ∈ rest, x ∈ (cat.volume_issues volume.cv_volume_id).map
        ComicVineIssue.issue_number :=
      fun x hx => hnums x (List.mem_cons_of_mem n hx)
    have hrun : run_find_issues cat expiry now volume st (n :: rest) =
        run_find_issues cat expiry now volume
          ((find_issue cat st expiry now volume n).2) rest := rfl
    rcases find_issue_step cat st expiry now volume n with hsame | ⟨hlog, hmemo, hfetch⟩
    · rw [hrun, hsame]
      exact ih st hrest
    · have hcount : (find_issue cat st expiry now volume n).2.fetch_log.count
          volume.cv_volume_id = st.fetch_log.count volume.cv_volume_id + 1 := by
        rw [hlog, List.count_append]
        simp
      constructor
      · intro htrue
        have h1 := hfetch htrue
        have h2 := buildIssueMap_mem_isSome (cat.volume_issues volume.cv_volume_id) n
          (hnums n (List.mem_cons_self n rest))
        rw [h1] at h2
        simp at h2
      · rw [hrun, (ih ((find_issue cat st expiry now volume n).2) hrest).1 hmemo,
          hcount]

/-- Witness for C3's amended theorem: two requests for the present number
`"1"` of volume 7 perform at most one fetch from a fresh matcher. -/
theorem find_issue_fetch_once_witness :
    (run_find_issues catalogGL 30 0 glVolume stGL ["1", "1"]).fetch_log.count
        glVolume.cv_volume_id ≤
      stGL.fetch_log.count glVolume.cv_volume_id + 1 :=
  (find_issue_fetch_once catalogGL 30 0 glVolume ["1", "1"] stGL (by decide)).2

/-- Everything surviving the eviction of a chronological deque is at least
the cutoff. -/
theorem sorted_popOld_ge (c : ℚ) (l : List ℚ) (hs : l.Sorted (· ≤ ·)) :
    ∀ x ∈ popOld c l, c ≤ x := by
  induction l with
  | nil => simp [popOld]
  | cons a t ih =>
    intro x hx
    rw [popOld, List.dropWhile_cons] at hx
    split at hx
    · exact ih hs.of_cons x hx
    · next hdec =>
      have ha : c ≤ a := le_of_not_lt (by simpa using hdec)
      rcases List.mem_cons.mp hx with rfl | hxt
      · exact ha
      · exact ha.trans ((List.sorted_cons.mp hs).1 x hxt)

/-- Appending a new maximum to a chronological list keeps it sorted. -/
theorem sorted_append_one (l : List ℚ) (a : ℚ) (hs : l.Sorted (· ≤ ·))
    (hle : ∀ x ∈ l, x ≤ a) : (l ++ [a]).Sorted (· ≤ ·) := by
  rw [List.Sorted, List.pairwise_append]
  refine ⟨hs, List.pairwise_singleton _ _, fun x hx y hy => ?_⟩
  rw [List.mem_singleton] at hy
  subst hy
  exact hle x hx

/-- One `acquire` step preserves the limiter invariant when the entry clock
reading strictly exceeds the previously recorded timestamp. -/
theorem acquire_step_inv (rl : RateLimiter) (t0 t1 t2 : ℚ) (rl' : RateLimiter)
    (hinv : rlInv rl) (hv : validSamples rl t0 t1 t2)
    (hstrict : rl.last_request_time < t0)
    (hacq : acquire rl t0 t1 t2 = some rl') :
    rlInv rl' ∧ rl'.max_requests = rl.max_requests := by
  obtain ⟨hsort, hbound, hcount⟩ := hinv
  obtain ⟨hv1, hv2, hv3, hv4, hv5, hv6⟩ := hv
  have hts1_sub : List.Sublist (rlAfterEvict rl t0) rl.request_times :=
    List.dropWhile_sublist _
  have hts1_sorted : (rlAfterEvict rl t0).Sorted (· ≤ ·) :=
    List.Pairwise.sublist hts1_sub hsort
  have hts1_ge : ∀ x ∈ rlAfterEvict rl t0, t0 - rl.window_seconds ≤ x :=
    sorted_popOld_ge _ _ hsort
  have hts1_le_t0 : ∀ x ∈ rlAfterEvict rl t0, x ≤ t0 :=
    fun x hx => hv1 x (hts1_sub.subset hx)
  have hlenA : (rlAfterEvict rl t0).length ≤ rl.max_requests := by
    have hpred : ∀ x ∈ rlAfterEvict rl t0,
        (decide (rl.last_request_time - rl.window_seconds < x)) = true := by
      intro x hx
      rw [decide_eq_true_eq]
      have := hts1_ge x hx
      linarith
    calc (rlAfterEvict rl t0).length
        = ((rlAfterEvict rl t0).filter
            (fun t => rl.last_request_time - rl.window_seconds < t)).length := by
          rw [List.filter_eq_self.mpr hpred]
      _ ≤ (rl.request_times.filter
            (fun t => rl.last_request_time - rl.window_seconds < t)).length :=
          (hts1_sub.filter _).length_le
      _ ≤ rl.max_requests := hcount
  cases hfull : rlWindowFull rl t0 with
  | false =>
    have hlt : (rlAfterEvict rl t0).length < rl.max_requests := by
      have := hfull
      simp only [rlWindowFull, decide_eq_false_iff_not, not_le] at this
      exact this
    simp only [acquire, hfull, Bool.false_eq_true, if_false, Option.some.injEq] at hacq
    subst hacq
    set cur := if t0 - rl.last_request_time < rl.min_interval then t2 else t0 with hcurdef
    have hcur_ge : t0 ≤ cur := by
      rw [hcurdef]
      split
      · exact hv3.trans hv5
      · exact le_refl t0
    have hA : (rlAfterEvict rl t0 ++ [cur]).Sorted (· ≤ ·) :=
      sorted_append_one _ _ hts1_sorted (fun x hx => (hts1_le_t0 x hx).trans hcur_ge)
    have hB : ∀ t ∈ rlAfterEvict rl t0 ++ [cur], t ≤ cur := by
      intro t ht
      rcases List.mem_append.mp ht with h | h
      · exact (hts1_le_t0 t h).trans hcur_ge
      · rw [List.mem_singleton] at h
        exact le_of_eq h
    have hC : ((rlAfterEvict rl t0 ++ [cur]).filter
        (fun t => cur - rl.window_seconds < t)).length ≤ rl.max_requests := by
      have h1 := List.length_filter_le (fun t => cur - rl.window_seconds < t)
        (rlAfterEvict rl t0 ++ [cur])
      rw [List.length_append] at h1
      simp only [List.length_singleton] at h1
      omega
    exact ⟨⟨hA, hB, hC⟩, rfl⟩
  | true =>
    cases hts1 : rlAfterEvict rl t0 with
    | nil =>
      exfalso
      rw [acquire] at hacq
      rw [hfull, hts1] at hacq
      simp at hacq
    | cons o rest =>
      have hdeadline : o + rl.window_seconds ≤ t1 := by
        have h := hv4 hfull
        rw [rlSleepUntil, hts1] at h
        exact h
      have hcurdef : acquire rl t0 t1 t2 =
          some { rl with
            request_times := popOld (t1 - rl.window_seconds) (o :: rest) ++
              [if t1 - rl.last_request_time < rl.min_interval then t2 else t1],
            last_request_time :=
              if t1 - rl.last_request_time < rl.min_interval then t2 else t1 } := by
        rw [acquire, hfull, hts1]
        simp
      rw [hcurdef, Option.some.injEq] at hacq
      subst hacq
      set cur := if t1 - rl.last_request_time < rl.min_interval then t2 else t1
        with hcurd
      have hcur_ge : t1 ≤ cur := by
        rw [hcurd]
        split
        · exact hv5
        · exact le_refl t1
      have hts2_sub : List.Sublist (popOld (t1 - rl.window_seconds) (o :: rest))
          (o :: rest) := List.dropWhile_sublist _
      have hts2_sub' : List.Sublist (popOld (t1 - rl.window_seconds) (o :: rest))
          rl.request_times := hts2_sub.trans (hts1 ▸ hts1_sub)
      have hts2_sorted : (popOld (t1 - rl.window_seconds) (o :: rest)).Sorted (· ≤ ·) :=
        List.Pairwise.sublist hts2_sub' hsort
      have hts2_le : ∀ x ∈ popOld (t1 - rl.window_seconds) (o :: rest), x ≤ cur :=
        fun x hx => ((hv1 x (hts2_sub'.subset hx)).trans hv3).trans hcur_ge
      have hA : (popOld (t1 - rl.window_seconds) (o :: rest) ++ [cur]).Sorted (· ≤ ·) :=
        sorted_append_one _ _ hts2_sorted hts2_le
      have hB : ∀ t ∈ popOld (t1 - rl.window_seconds) (o :: rest) ++ [cur], t ≤ cur := by
        intro t ht
        rcases List.mem_append.mp ht with h | h
        · exact hts2_le t h
        · rw [List.mem_singleton] at h
          exact le_of_eq h
      have hlen1 : rest.length + 1 ≤ rl.max_requests := by
        have h := hlenA
        rw [hts1] at h
        simpa using h
      have himp : ∀ x : ℚ,
          (decide (cur - rl.window_seconds < x)) = true → (decide (o < x)) = true := by
        intro x hx
        rw [decide_eq_true_eq] at hx ⊢
        have h1 : t1 - rl.window_seconds ≤ cur - rl.window_seconds := by linarith
        linarith
      have hstep1 : List.Sublist
          ((popOld (t1 - rl.window_seconds) (o :: rest)).filter
            (fun t => cur - rl.window_seconds < t))
          ((popOld (t1 - rl.window_seconds) (o :: rest)).filter (fun t => o < t)) :=
        List.monotone_filter_right _ himp
      have hstep2 : List.Sublist
          ((popOld (t1 - rl.window_seconds) (o :: rest)).filter (fun t => o < t))
          ((o :: rest).filter (fun t => o < t)) := hts2_sub.filter _
      have hstep3 : (o :: rest).filter (fun t => o < t) =
          rest.filter (fun t => o < t) := by
        rw [List.filter_cons]
        simp
      have hchain : List.Sublist
          ((popOld (t1 - rl.window_seconds) (o :: rest)).filter
            (fun t => cur - rl.window_seconds < t))
          (rest.filter (fun t => o < t)) :=
        hstep3 ▸ hstep1.trans hstep2
      have hb1 : ((popOld (t1 - rl.window_seconds) (o :: rest)).filter
          (fun t => cur - rl.window_seconds < t)).length ≤ rest.length :=
        hchain.length_le.trans (List.length_filter_le _ _)
      have hb2 : (([cur]).filter (fun t => cur - rl.window_seconds < t)).length ≤ 1 :=
        List.length_filter_le _ _
      have hC : ((popOld (t1 - rl.window_seconds) (o :: rest) ++ [cur]).filter
          (fun t => cur - rl.window_seconds < t)).length ≤ rl.max_requests := by
        rw [List.filter_append, List.length_append]
        omega
      exact ⟨⟨hA, hB, hC⟩, rfl⟩

/-- A strict-clock trace restricted to a prefix is still a strict-clock
trace. -/
theorem strictTrace_take (k : Nat) :
    ∀ (rl : RateLimiter) (tr : List (ℚ × ℚ × ℚ)), strictTrace rl tr →
      strictTrace rl (tr.take k) := by
  induction k with
  | zero => intro rl tr _; simp [strictTrace]
  | succ m ih =>
    intro rl tr h
    cases tr with
    | nil => simpa using h
    | cons t rest =>
      obtain ⟨t0, t1, t2⟩ := t
      rw [List.take_succ_cons]
      rcases ha : acquire rl t0 t1 t2 with - | rlm
      · simp only [strictTrace, ha] at h ⊢
        exact h
      · simp only [strictTrace, ha] at h ⊢
        exact ⟨h.1, ih rlm rest h.2⟩

/-- Running a strict-clock trace preserves the limiter invariant and the
configured maximum. -/
theorem runAcquires_inv :
    ∀ (tr : List (ℚ × ℚ × ℚ)) (rl rl' : RateLimiter),
      rlInv rl → strictTrace rl tr → runAcquires rl tr = some rl' →
      rlInv rl' ∧ rl'.max_requests = rl.max_requests := by
  intro tr
  induction tr with
  | nil =>
    intro rl rl' hinv _ hrun
    obtain rfl : rl = rl' := by simpa [runAcquires] using hrun
    exact ⟨hinv, rfl⟩
  | cons t rest ih =>
    obtain ⟨t0, t1, t2⟩ := t
    intro rl rl' hinv htr hrun
    rcases ha : acquire rl t0 t1 t2 with - | rlm
    · rw [runAcquires, ha] at hrun
      simp at hrun
    · rw [runAcquires, ha] at hrun
      simp only [strictTrace, ha] at htr
      obtain ⟨⟨hvs, hst⟩, htr'⟩ := htr
      obtain ⟨hinv', hmax⟩ := acquire_step_inv rl t0 t1 t2 rlm hinv hvs hst ha
      obtain ⟨hi, hm⟩ := ih rlm rl' hinv' htr' hrun
      exact ⟨hi, hm.trans hmax⟩

/-- C4 (amended): against a limiter configured for at most N calls per
trailing W-second window, along any admissible trace whose entry clock
readings strictly exceed the previously recorded timestamp, the state after
any prefix of successful `acquire` calls holds at most N recorded
timestamps strictly within the trailing window ending at the moment of the
latest return. -/
theorem rate_limiter_window_strict (N : ℕ) (W I : ℚ) (tr : List (ℚ × ℚ × ℚ))
    (k : ℕ) (rl' : RateLimiter)
    (htr : strictTrace (mkRateLimiter N W I) tr)
    (hrun : runAcquires (mkRateLimiter N W I) (tr.take k) = some rl') :
    inWindowCount rl' rl'.last_request_time ≤ N := by
  have htk := strictTrace_take k (mkRateLimiter N W I) tr htr
  have hinv0 : rlInv (mkRateLimiter N W I) :=
    ⟨List.sorted_nil, by simp [mkRateLimiter], by simp [inWindowCount, mkRateLimiter]⟩
  obtain ⟨⟨-, -, hc⟩, hmax⟩ := runAcquires_inv (tr.take k) _ rl' hinv0 htk hrun
  rw [hmax] at hc
  exact hc

/-- Witness for C4's amended theorem: one strict-clock acquisition against
the (2, 10, 1) limiter ends with one in-window timestamp, within the
bound. -/
theorem rate_limiter_window_strict_witness :
    inWindowCount rlOneCall rlOneCall.last_request_time ≤ 2 :=
  rate_limiter_window_strict 2 10 1 [(100, 100, 100)] 1 rlOneCall
    (by decide) (by decide)

end CbroSpec
